import Mathlib

/-!
# netmon: the stats-delta engine and its sample loop

A shallow embedding of `pkg/stats/stats.go` and of the sample loop of
`cmd/cmd.go`.

* `uint64` values are natural numbers; arithmetic on them is reduced
  modulo `2 ^ 64` explicitly (`wrap64`).
* `float64` values are their IEEE-754 binary64 bit patterns (`Float64`); the
  zero value `0.0` is the pattern `0`.
* Go slices are lists. A slice expression `s[:n]` needs `n ≤ cap(s)`; the
  capacity is not part of the model, so `sliceTo` answers only when
  `n ≤ len(s)` (where Go certainly succeeds and yields the first `n` elements)
  and is `none` otherwise (where Go panics or exposes hidden capacity).
* The two package-level maps are the two fields of `State`; a Go map is a
  function from keys to optional values.
* The kernel counter source (`netlink`) is outside the program: the reading it
  returns for a call is an argument of that call (`none` = not found).
* A result of type `Option _` is `none` when the Go code panics.
-/

namespace Netmon

/-! ## Data model -/

/-- The eight counters of `type NetworkStats struct`; every field is a `uint64`. -/
structure NetworkStats where
  TxPackets : Nat
  TxBytes : Nat
  TxErrors : Nat
  TxDropped : Nat
  RxPackets : Nat
  RxBytes : Nat
  RxErrors : Nat
  RxDropped : Nat
  deriving DecidableEq, Repr

/-- The zero value `NetworkStats{}`. -/
def NetworkStats.zero : NetworkStats :=
  { TxPackets := 0, TxBytes := 0, TxErrors := 0, TxDropped := 0,
    RxPackets := 0, RxBytes := 0, RxErrors := 0, RxDropped := 0 }

/-- Every field is a value of type `uint64`. -/
def NetworkStats.inRange (a : NetworkStats) : Prop :=
  a.TxPackets < 2 ^ 64 ∧ a.TxBytes < 2 ^ 64 ∧ a.TxErrors < 2 ^ 64 ∧ a.TxDropped < 2 ^ 64 ∧
  a.RxPackets < 2 ^ 64 ∧ a.RxBytes < 2 ^ 64 ∧ a.RxErrors < 2 ^ 64 ∧ a.RxDropped < 2 ^ 64

instance (a : NetworkStats) : Decidable a.inRange := by
  unfold NetworkStats.inRange
  infer_instance

/-- A `float64`, as its IEEE-754 binary64 bit pattern. -/
structure Float64 where
  bits : Nat
  deriving DecidableEq, Repr

/-- The zero value of `float64`, `+0.0`. -/
def Float64.zero : Float64 := ⟨0⟩

/-- Number of significant bits of `n`, for `n < 2 ^ fuel`. -/
def bitLength : Nat → Nat → Nat
  | 0, _ => 0
  | fuel + 1, n => if n = 0 then 0 else bitLength fuel (n / 2) + 1

/-- The conversion `float64(n)` of a `uint64`: the nearest binary64 value, ties to even. -/
def float64 (n : Nat) : Float64 :=
  if n = 0 then ⟨0⟩
  else
    let len := bitLength 64 n
    if len ≤ 53 then
      ⟨(1022 + len) * 2 ^ 52 + (n * 2 ^ (53 - len) - 2 ^ 52)⟩
    else
      let sh := len - 53
      let q := n / 2 ^ sh
      let r := n % 2 ^ sh
      let half := 2 ^ (sh - 1)
      let q1 := if half < r ∨ (r = half ∧ q % 2 = 1) then q + 1 else q
      ⟨(1022 + len) * 2 ^ 52 + (q1 - 2 ^ 52)⟩

/-- The constant `maxNetworkSeriesFrame`. -/
def maxNetworkSeriesFrame : Nat := 300

/-- The eight histories of `type NetworkSeries struct`. -/
structure NetworkSeries where
  TxPackets : List Float64
  TxBytes : List Float64
  TxErrors : List Float64
  TxDropped : List Float64
  RxPackets : List Float64
  RxBytes : List Float64
  RxErrors : List Float64
  RxDropped : List Float64
  deriving DecidableEq, Repr

/-- The zero value `NetworkSeries{}`: eight nil slices. -/
def NetworkSeries.empty : NetworkSeries :=
  { TxPackets := [], TxBytes := [], TxErrors := [], TxDropped := [],
    RxPackets := [], RxBytes := [], RxErrors := [], RxDropped := [] }

/-- The struct `InterfaceStats`. -/
structure InterfaceStats where
  Name : String
  NetworkStats : NetworkStats
  NetworkSeries : NetworkSeries
  deriving DecidableEq, Repr

/-- The package variables `statCache` and `seriesCache`. Each `*NetworkSeries` is
held by exactly one map entry, so the pointer is modelled by its contents. -/
structure State where
  statCache : String → Option NetworkStats
  seriesCache : String → Option NetworkSeries

/-- The state set up by `init()`: two empty maps. -/
def State.init : State :=
  { statCache := fun _ => none, seriesCache := fun _ => none }

/-- The map assignment `m[key] = value`. -/
def mapSet {α : Type} (m : String → Option α) (key : String) (value : α) : String → Option α :=
  fun k => if k = key then some value else m k

/-! ## Operations of `pkg/stats` -/

/-- `Reset`: both maps are replaced by fresh empty maps. -/
def Reset (_s : State) : State :=
  { statCache := fun _ => none, seriesCache := fun _ => none }

/-- `make([]float64, n)`. -/
def makeFloats (n : Nat) : List Float64 := List.replicate n Float64.zero

/-- `NewNetworkSeries`. -/
def NewNetworkSeries : NetworkSeries :=
  { TxPackets := makeFloats maxNetworkSeriesFrame,
    TxBytes := makeFloats maxNetworkSeriesFrame,
    TxErrors := makeFloats maxNetworkSeriesFrame,
    TxDropped := makeFloats maxNetworkSeriesFrame,
    RxPackets := makeFloats maxNetworkSeriesFrame,
    RxBytes := makeFloats maxNetworkSeriesFrame,
    RxErrors := makeFloats maxNetworkSeriesFrame,
    RxDropped := makeFloats maxNetworkSeriesFrame }

/-- Reduction of an integer to a `uint64`. -/
def wrap64 (x : Int) : Nat := (x % 2 ^ 64).toNat

/-- The `uint64` subtraction `a - b`. -/
def usub (a b : Nat) : Nat := wrap64 ((a : Int) - (b : Int))

/-- `func (now NetworkStats) sub(before NetworkStats) NetworkStats`. -/
def NetworkStats.sub (now before : NetworkStats) : NetworkStats :=
  { TxPackets := usub now.TxPackets before.TxPackets,
    TxBytes := usub now.TxBytes before.TxBytes,
    TxErrors := usub now.TxErrors before.TxErrors,
    TxDropped := usub now.TxDropped before.TxDropped,
    RxPackets := usub now.RxPackets before.RxPackets,
    RxBytes := usub now.RxBytes before.RxBytes,
    RxErrors := usub now.RxErrors before.RxErrors,
    RxDropped := usub now.RxDropped before.RxDropped }

/-- The slice expression `s[:n]`. -/
def sliceTo (s : List Float64) (n : Nat) : Option (List Float64) :=
  if n ≤ s.length then some (s.take n) else none

/-- The expression `append([]float64{x}, s[:maxNetworkSeriesFrame-1]...)`. -/
def pushFront (x : Float64) (s : List Float64) : Option (List Float64) :=
  (sliceTo s (maxNetworkSeriesFrame - 1)).map (fun t => x :: t)

/-- `func (series *NetworkSeries) add(point NetworkStats)`; the result is the
struct the pointer refers to afterwards. -/
def NetworkSeries.add (series : NetworkSeries) (point : NetworkStats) : Option NetworkSeries := do
  let txPackets ← pushFront (float64 point.TxPackets) series.TxPackets
  let txBytes ← pushFront (float64 point.TxBytes) series.TxBytes
  let txErrors ← pushFront (float64 point.TxErrors) series.TxErrors
  let txDropped ← pushFront (float64 point.TxDropped) series.TxDropped
  let rxPackets ← pushFront (float64 point.RxPackets) series.RxPackets
  let rxBytes ← pushFront (float64 point.RxBytes) series.RxBytes
  let rxErrors ← pushFront (float64 point.RxErrors) series.RxErrors
  let rxDropped ← pushFront (float64 point.RxDropped) series.RxDropped
  pure { TxPackets := txPackets, TxBytes := txBytes, TxErrors := txErrors,
         TxDropped := txDropped, RxPackets := rxPackets, RxBytes := rxBytes,
         RxErrors := rxErrors, RxDropped := rxDropped }

/-- `getRelativeStats`, with the result of `getAbsoluteStats(linkName)` as the
argument `absStats`. The first component of the result is the returned pointer
(`none` = `nil`), the second the state after the call. -/
def getRelativeStats (s : State) (linkName : String) (absStats : Option NetworkStats) :
    Option (Option NetworkStats × State) :=
  match absStats with
  | none => some (none, s)
  | some absStats =>
    -- Handle network stats
    let (relStats, statCache) :=
      match s.statCache linkName with
      | some oldStats => (absStats.sub oldStats, s.statCache)
      | none => (NetworkStats.zero, mapSet s.statCache linkName absStats)
    -- Handle network series
    match s.seriesCache linkName with
    | some series =>
      (series.add relStats).map fun series1 =>
        (some relStats, { statCache := statCache,
                          seriesCache := mapSet s.seriesCache linkName series1 })
    | none =>
      some (some relStats, { statCache := statCache,
                             seriesCache := mapSet s.seriesCache linkName NewNetworkSeries })

/-- The error text of `NewInterfaceStats`. -/
def errNoStatistics : String := "Could not get statistics"

/-- `NewInterfaceStats`: the returned pair `(InterfaceStats, error)` (`none` = nil
error) and the state after the call. -/
def NewInterfaceStats (s : State) (linkName : String) (absStats : Option NetworkStats) :
    Option ((InterfaceStats × Option String) × State) :=
  let output : InterfaceStats :=
    { Name := linkName, NetworkStats := NetworkStats.zero, NetworkSeries := NetworkSeries.empty }
  match getRelativeStats s linkName absStats with
  | none => none
  | some (none, s1) => some ((output, some errNoStatistics), s1)
  | some (some stats, s1) => some (({ output with NetworkStats := stats }, none), s1)

/-- `func (i InterfaceStats) Graph() NetworkSeries`. -/
def InterfaceStats.Graph (i : InterfaceStats) (s : State) : Netmon.NetworkSeries :=
  match s.seriesCache i.Name with
  | some series => series
  | none => NetworkSeries.empty

/-! ## Runs of the engine -/

/-- One call into the engine: a sample of an interface, together with what the
counter source answers for it, or the reset command. -/
inductive Cmd where
  | sample (linkName : String) (absStats : Option NetworkStats)
  | reset

/-- The state after one command. -/
def step (s : State) : Cmd → Option State
  | Cmd.sample linkName absStats => (NewInterfaceStats s linkName absStats).map (fun r => r.2)
  | Cmd.reset => some (Reset s)

/-- The state after a sequence of commands. -/
def exec (s : State) : List Cmd → Option State
  | [] => some s
  | c :: cs => (step s c).bind (fun s1 => exec s1 cs)

/-- Consecutive calls `NewInterfaceStats(linkName)`, one per reading of the
counter source; the results are the returned `InterfaceStats` values in call
order. -/
def sampleSeq (s : State) (linkName : String) :
    List NetworkStats → Option (List InterfaceStats × State)
  | [] => some ([], s)
  | a :: rest =>
    match NewInterfaceStats s linkName (some a) with
    | none => none
    | some (r, s1) =>
      match sampleSeq s1 linkName rest with
      | none => none
      | some (outs, s2) => some (r.1 :: outs, s2)

/-- Consecutive calls `series.add(p)` for the points of a list, in list order. -/
def addAll (series : NetworkSeries) : List NetworkStats → Option NetworkSeries
  | [] => some series
  | p :: ps => (series.add p).bind (fun series1 => addAll series1 ps)

/-! ## Predicates used in the statements -/

/-- The eight field names shared by `NetworkStats` and `NetworkSeries`. -/
inductive Field where
  | TxPackets | TxBytes | TxErrors | TxDropped
  | RxPackets | RxBytes | RxErrors | RxDropped
  deriving DecidableEq, Repr, Fintype

/-- The field `f` of a `NetworkStats`. -/
def NetworkStats.get (a : NetworkStats) : Field → Nat
  | Field.TxPackets => a.TxPackets
  | Field.TxBytes => a.TxBytes
  | Field.TxErrors => a.TxErrors
  | Field.TxDropped => a.TxDropped
  | Field.RxPackets => a.RxPackets
  | Field.RxBytes => a.RxBytes
  | Field.RxErrors => a.RxErrors
  | Field.RxDropped => a.RxDropped

/-- The field `f` of a `NetworkSeries`. -/
def NetworkSeries.get (series : NetworkSeries) : Field → List Float64
  | Field.TxPackets => series.TxPackets
  | Field.TxBytes => series.TxBytes
  | Field.TxErrors => series.TxErrors
  | Field.TxDropped => series.TxDropped
  | Field.RxPackets => series.RxPackets
  | Field.RxBytes => series.RxBytes
  | Field.RxErrors => series.RxErrors
  | Field.RxDropped => series.RxDropped

/-- All eight histories have length `maxNetworkSeriesFrame`. -/
def NetworkSeries.aligned (series : NetworkSeries) : Prop :=
  ∀ f : Field, (series.get f).length = maxNetworkSeriesFrame

instance (series : NetworkSeries) : Decidable series.aligned := by
  unfold NetworkSeries.aligned
  infer_instance

/-- All eight histories are `maxNetworkSeriesFrame` zeros. -/
def NetworkSeries.allZero (series : NetworkSeries) : Prop :=
  ∀ f : Field, series.get f = List.replicate maxNetworkSeriesFrame Float64.zero

/-- Index 0 of every history of `series` is the conversion of the matching field of `d`. -/
def NetworkSeries.headIs (series : NetworkSeries) (d : NetworkStats) : Prop :=
  ∀ f : Field, (series.get f)[0]? = some (float64 (d.get f))

/-- Every stored buffer is aligned. -/
def State.aligned (s : State) : Prop :=
  ∀ name series, s.seriesCache name = some series → series.aligned

/-- Every interface with a baseline has a buffer. -/
def State.paired (s : State) : Prop :=
  ∀ name, s.seriesCache name = none → s.statCache name = none

/-- The relation between the operands `n`, `b` and the result `r` of a `uint64`
subtraction with wraparound. -/
def WrapDiff (n b r : Nat) : Prop :=
  (r : Int) = ((n : Int) - (b : Int)) % 2 ^ 64 ∧
  (b ≤ n → r = n - b) ∧
  (n < b → r = 2 ^ 64 - (b - n)) ∧
  (b + r) % 2 ^ 64 = n ∧
  r < 2 ^ 64

/-! ## The sample loop of `cmd.Run`

The rendering layer (`termdash`) is outside the program: the loop is modelled up
to the calls it makes into it, recorded in order as `Publish` values. -/

/-- `fmt` padding to a minimum width, spaces on the left (`%32s`, `%12d`). -/
def padLeft (width : Nat) (str : String) : String :=
  String.mk (List.replicate (width - str.length) ' ') ++ str

/-- The verb `%12d` applied to a `uint64`. -/
def fmtD12 (n : Nat) : String := padLeft 12 (toString n)

/-- `func (i InterfaceStats) Write() string`. -/
def InterfaceStats.Write (i : InterfaceStats) : String :=
  " Name: " ++ padLeft 32 i.Name ++ "\n" ++
  "----------+-TX-----------+-RX----------\n" ++
  " Packets: | " ++ fmtD12 i.NetworkStats.TxPackets ++ " | " ++
    fmtD12 i.NetworkStats.RxPackets ++ "\n" ++
  " Bytes:   | " ++ fmtD12 i.NetworkStats.TxBytes ++ " | " ++
    fmtD12 i.NetworkStats.RxBytes ++ "\n" ++
  " Dropped: | " ++ fmtD12 i.NetworkStats.TxDropped ++ " | " ++
    fmtD12 i.NetworkStats.RxDropped ++ "\n" ++
  " Error:   | " ++ fmtD12 i.NetworkStats.TxErrors ++ " | " ++
    fmtD12 i.NetworkStats.RxErrors ++ "\n"

/-- The table `interfaceColors`, as the numbers given to `cell.Color`. -/
def interfaceColors : List Nat := [2, 3, 4, 5, 6, 7]

/-- The table `brightInterfaceColors`, as the numbers given to `cell.Color`. -/
def brightInterfaceColors : List Nat := [10, 11, 12, 13, 14, 15]

/-- The four line charts created by `Run`. -/
inductive Chart where
  | packetGraph | byteGraph | errorsGraph | droppedGraph
  deriving DecidableEq, Repr

/-- A call of the loop into the rendering layer: `tables[i].Write(text,
text.WriteReplace())`, or `chart.Series(label, values,
linechart.SeriesCellOpts(cell.FgColor(color)))`. -/
inductive Publish where
  | tableWrite (i : Nat) (text : String)
  | series (chart : Chart) (label : String) (values : List Float64) (color : Nat)
  deriving DecidableEq, Repr

/-- The body of `for i, table := range tables` for the index `i`, with the answer
of the counter source for `interfaces[i]` as `absStats`: the state afterwards and
the calls made into the rendering layer, in order. -/
def tickInterface (interfaces : List String) (s : State) (i : Nat)
    (absStats : Option NetworkStats) : Option (State × List Publish) :=
  match interfaces[i]? with
  | none => none
  | some name =>
    match NewInterfaceStats s name absStats with
    | none => none
    | some ((inter, _), s1) =>
      match brightInterfaceColors[i]?, interfaceColors[i]? with
      | some brightColor, some color =>
        let series := inter.Graph s1
        some (s1,
          [ Publish.tableWrite i inter.Write,
            Publish.series Chart.packetGraph ("TX Packets: " ++ name) series.TxPackets brightColor,
            Publish.series Chart.packetGraph ("RX Packets: " ++ name) series.RxPackets color,
            Publish.series Chart.byteGraph ("TX Bytes: " ++ name) series.TxBytes brightColor,
            Publish.series Chart.byteGraph ("RX Bytes: " ++ name) series.RxBytes color,
            Publish.series Chart.byteGraph ("TX Errors: " ++ name) series.TxErrors brightColor,
            Publish.series Chart.byteGraph ("RX Errors: " ++ name) series.RxErrors color,
            Publish.series Chart.byteGraph ("TX Dropped: " ++ name) series.TxDropped brightColor,
            Publish.series Chart.byteGraph ("RX Dropped: " ++ name) series.RxDropped color ])
      | _, _ => none

/-- The iterations of the inner loop for the indices of a list, in order. -/
def tickLoop (interfaces : List String) (readings : Nat → Option NetworkStats) :
    List Nat → State → Option (State × List Publish)
  | [], s => some (s, [])
  | i :: rest, s =>
    match tickInterface interfaces s i (readings i) with
    | none => none
    | some (s1, pubs) =>
      match tickLoop interfaces readings rest s1 with
      | none => none
      | some (s2, pubs2) => some (s2, pubs ++ pubs2)

/-- One tick of the sample loop: `tables` has one entry per configured interface;
`readings i` is the answer of the counter source at iteration `i`. -/
def tick (interfaces : List String) (readings : Nat → Option NetworkStats) (s : State) :
    Option (State × List Publish) :=
  tickLoop interfaces readings (List.range interfaces.length) s

/-! ## Concrete inputs -/

/-- The Go literal `InterfaceStats{Name: name}`. -/
def interfaceNamed (name : String) : InterfaceStats :=
  { Name := name, NetworkStats := NetworkStats.zero, NetworkSeries := NetworkSeries.empty }

/-- A reading whose `TxPackets` is `tx` and whose other counters are 0. -/
def txReading (tx : Nat) : NetworkStats :=
  { TxPackets := tx, TxBytes := 0, TxErrors := 0, TxDropped := 0,
    RxPackets := 0, RxBytes := 0, RxErrors := 0, RxDropped := 0 }

/-- A reading with eight different counters. -/
def readingA : NetworkStats :=
  { TxPackets := 1000, TxBytes := 64000, TxErrors := 1, TxDropped := 2,
    RxPackets := 900, RxBytes := 57600, RxErrors := 3, RxDropped := 4 }

/-- A later reading, two of whose counters are below those of `readingA`. -/
def readingB : NetworkStats :=
  { TxPackets := 1050, TxBytes := 2 ^ 64 - 1, TxErrors := 0, TxDropped := 2,
    RxPackets := 5, RxBytes := 57600, RxErrors := 4, RxDropped := 9 }

/-! ## Basic facts -/

theorem makeFloats_length (n : Nat) : (makeFloats n).length = n := by
  simp [makeFloats]

theorem NewNetworkSeries_allZero : NewNetworkSeries.allZero := by
  intro f
  cases f <;> rfl

theorem NewNetworkSeries_aligned : NewNetworkSeries.aligned := by
  intro f
  cases f <;> simp [NetworkSeries.get, NewNetworkSeries, makeFloats_length]

theorem float64_zero : float64 0 = Float64.zero := by
  simp [float64, Float64.zero]

theorem replicate_head {α : Type} (n : Nat) (x : α) (h : 0 < n) :
    (List.replicate n x)[0]? = some x := by
  cases n with
  | zero => omega
  | succ k => simp [List.replicate_succ]

theorem NewNetworkSeries_headIs : NewNetworkSeries.headIs NetworkStats.zero := by
  intro f
  have h0 : ∀ g, NetworkStats.zero.get g = 0 := by
    intro g
    cases g <;> rfl
  rw [NewNetworkSeries_allZero f, h0 f, float64_zero]
  exact replicate_head _ _ (by decide)

theorem init_aligned : State.init.aligned := by
  intro name series h
  simp [State.init] at h

theorem init_paired : State.init.paired := by
  intro name _
  rfl

theorem pushFront_of_length {s : List Float64} (x : Float64)
    (h : s.length = maxNetworkSeriesFrame) :
    pushFront x s = some (x :: s.take (maxNetworkSeriesFrame - 1)) := by
  simp [pushFront, sliceTo, h, maxNetworkSeriesFrame]

theorem usub_wrapDiff (n b : Nat) (hn : n < 2 ^ 64) (hb : b < 2 ^ 64) :
    WrapDiff n b (usub n b) := by
  unfold WrapDiff usub wrap64
  refine ⟨?_, ?_, ?_, ?_, ?_⟩ <;> omega

theorem usub_cast (n b : Nat) : ((usub n b : Nat) : Int) = ((n : Int) - (b : Int)) % 2 ^ 64 := by
  unfold usub wrap64
  omega

theorem sub_get (now before : NetworkStats) (f : Field) :
    (now.sub before).get f = usub (now.get f) (before.get f) := by
  cases f <;> rfl

/-- The value of `series.add(point)` on an aligned buffer. -/
theorem add_of_aligned {series : NetworkSeries} (point : NetworkStats) (h : series.aligned) :
    series.add point = some
      { TxPackets := float64 point.TxPackets :: series.TxPackets.take (maxNetworkSeriesFrame - 1),
        TxBytes := float64 point.TxBytes :: series.TxBytes.take (maxNetworkSeriesFrame - 1),
        TxErrors := float64 point.TxErrors :: series.TxErrors.take (maxNetworkSeriesFrame - 1),
        TxDropped := float64 point.TxDropped :: series.TxDropped.take (maxNetworkSeriesFrame - 1),
        RxPackets := float64 point.RxPackets :: series.RxPackets.take (maxNetworkSeriesFrame - 1),
        RxBytes := float64 point.RxBytes :: series.RxBytes.take (maxNetworkSeriesFrame - 1),
        RxErrors := float64 point.RxErrors :: series.RxErrors.take (maxNetworkSeriesFrame - 1),
        RxDropped := float64 point.RxDropped :: series.RxDropped.take (maxNetworkSeriesFrame - 1) } := by
  have h1 := h Field.TxPackets
  have h2 := h Field.TxBytes
  have h3 := h Field.TxErrors
  have h4 := h Field.TxDropped
  have h5 := h Field.RxPackets
  have h6 := h Field.RxBytes
  have h7 := h Field.RxErrors
  have h8 := h Field.RxDropped
  simp only [NetworkSeries.get] at h1 h2 h3 h4 h5 h6 h7 h8
  simp [NetworkSeries.add, pushFront_of_length, h1, h2, h3, h4, h5, h6, h7, h8]

/-- Field by field: an `add` on an aligned buffer puts the converted point in
front of the first `maxNetworkSeriesFrame - 1` old elements. -/
theorem add_get {series series1 : NetworkSeries} {point : NetworkStats}
    (h : series.aligned) (hadd : series.add point = some series1) (f : Field) :
    series1.get f = float64 (point.get f) :: (series.get f).take (maxNetworkSeriesFrame - 1) := by
  rw [add_of_aligned point h] at hadd
  cases hadd
  cases f <;> rfl

/-- An `add` on an aligned buffer leaves an aligned buffer whose heads are the new point. -/
theorem add_aligned {series series1 : NetworkSeries} {point : NetworkStats}
    (h : series.aligned) (hadd : series.add point = some series1) :
    series1.aligned ∧ series1.headIs point := by
  refine ⟨fun f => ?_, fun f => ?_⟩
  · rw [add_get h hadd f]
    have := h f
    simp [this, maxNetworkSeriesFrame]
  · rw [add_get h hadd f]
    simp

theorem mapSet_same {α : Type} (m : String → Option α) (key : String) (value : α) :
    mapSet m key value key = some value := by
  simp [mapSet]

theorem mapSet_other {α : Type} (m : String → Option α) {key k : String} (value : α)
    (h : k ≠ key) : mapSet m key value k = m k := by
  simp [mapSet, h]

/-- What `getRelativeStats` does on a state whose buffers are aligned, when the
counter source answers `absStats`. -/
theorem getRelativeStats_of_aligned {s : State} (hs : s.aligned) (linkName : String)
    (absStats : NetworkStats) :
    ∃ rel stat1 series1,
      getRelativeStats s linkName (some absStats) =
        some (some rel, { statCache := stat1, seriesCache := mapSet s.seriesCache linkName series1 }) ∧
      (∀ old, s.statCache linkName = some old → rel = absStats.sub old ∧ stat1 = s.statCache) ∧
      (s.statCache linkName = none →
        rel = NetworkStats.zero ∧ stat1 = mapSet s.statCache linkName absStats) ∧
      (∀ series, s.seriesCache linkName = some series → series.add rel = some series1) ∧
      (s.seriesCache linkName = none → series1 = NewNetworkSeries) ∧
      series1.aligned := by
  unfold getRelativeStats
  cases hstat : s.statCache linkName with
  | none =>
    cases hser : s.seriesCache linkName with
    | none =>
      exact ⟨NetworkStats.zero, mapSet s.statCache linkName absStats, NewNetworkSeries, rfl,
        by simp, by simp, by simp, by simp, NewNetworkSeries_aligned⟩
    | some series =>
      have hal := hs linkName series hser
      have hadd := add_of_aligned NetworkStats.zero hal
      refine ⟨NetworkStats.zero, mapSet s.statCache linkName absStats, _, ?_, by simp, by simp,
        ?_, by simp, (add_aligned hal hadd).1⟩
      · simp [hadd]
      · intro series2 h2
        cases h2
        exact hadd
  | some old =>
    cases hser : s.seriesCache linkName with
    | none =>
      exact ⟨absStats.sub old, s.statCache, NewNetworkSeries, rfl, by simp, by simp, by simp,
        by simp, NewNetworkSeries_aligned⟩
    | some series =>
      have hal := hs linkName series hser
      have hadd := add_of_aligned (absStats.sub old) hal
      refine ⟨absStats.sub old, s.statCache, _, ?_, by simp, by simp, ?_, by simp,
        (add_aligned hal hadd).1⟩
      · simp [hadd]
      · intro series2 h2
        cases h2
        exact hadd

/-- What `NewInterfaceStats` does on a state whose buffers are aligned, when the
counter source answers `absStats`. -/
theorem NewInterfaceStats_of_aligned {s : State} (hs : s.aligned) (linkName : String)
    (absStats : NetworkStats) :
    ∃ rel stat1 series1,
      NewInterfaceStats s linkName (some absStats) =
        some (({ Name := linkName, NetworkStats := rel, NetworkSeries := NetworkSeries.empty },
               none),
              { statCache := stat1, seriesCache := mapSet s.seriesCache linkName series1 }) ∧
      (∀ old, s.statCache linkName = some old → rel = absStats.sub old ∧ stat1 = s.statCache) ∧
      (s.statCache linkName = none →
        rel = NetworkStats.zero ∧ stat1 = mapSet s.statCache linkName absStats) ∧
      (∀ series, s.seriesCache linkName = some series → series.add rel = some series1) ∧
      (s.seriesCache linkName = none → series1 = NewNetworkSeries) ∧
      series1.aligned := by
  obtain ⟨rel, stat1, series1, hget, h1, h2, h3, h4, h5⟩ :=
    getRelativeStats_of_aligned hs linkName absStats
  refine ⟨rel, stat1, series1, ?_, h1, h2, h3, h4, h5⟩
  simp [NewInterfaceStats, hget]

/-- A call whose counter source answers "not found" returns the error and the same state. -/
theorem NewInterfaceStats_none (s : State) (linkName : String) :
    NewInterfaceStats s linkName none =
      some (({ Name := linkName, NetworkStats := NetworkStats.zero,
               NetworkSeries := NetworkSeries.empty }, some errNoStatistics), s) := by
  rfl

/-- One command keeps the buffers aligned and paired with the baselines, and does not panic. -/
theorem step_invariant {s : State} (hs : s.aligned) (hp : s.paired) (c : Cmd) :
    ∃ s1, step s c = some s1 ∧ s1.aligned ∧ s1.paired := by
  cases c with
  | reset => exact ⟨Reset s, rfl, init_aligned, init_paired⟩
  | sample linkName absStats =>
    cases absStats with
    | none => exact ⟨s, by simp [step, NewInterfaceStats_none], hs, hp⟩
    | some a =>
      obtain ⟨rel, stat1, series1, hnew, h1, h2, _, _, h5⟩ :=
        NewInterfaceStats_of_aligned hs linkName a
      refine ⟨{ statCache := stat1, seriesCache := mapSet s.seriesCache linkName series1 },
        by simp [step, hnew], ?_, ?_⟩
      · intro k series hk
        by_cases hkn : k = linkName
        · subst hkn
          simp [mapSet_same] at hk
          subst hk
          exact h5
        · simp [mapSet_other _ _ hkn] at hk
          exact hs k series hk
      · intro k hk
        by_cases hkn : k = linkName
        · subst hkn
          simp [mapSet_same] at hk
        · simp [mapSet_other _ _ hkn] at hk
          have hk0 := hp k hk
          cases hstat : s.statCache linkName with
          | none =>
            have := (h2 hstat).2
            simp [this, mapSet_other _ _ hkn, hk0]
          | some old =>
            have := (h1 old hstat).2
            simp [this, hk0]

/-- Every command sequence runs to the end from an aligned, paired state and
ends in such a state. -/
theorem exec_invariant (cmds : List Cmd) : ∀ {s : State}, s.aligned → s.paired →
    ∃ s1, exec s cmds = some s1 ∧ s1.aligned ∧ s1.paired := by
  induction cmds with
  | nil => intro s hs hp; exact ⟨s, rfl, hs, hp⟩
  | cons c cs ih =>
    intro s hs hp
    obtain ⟨s1, hstep, hs1, hp1⟩ := step_invariant hs hp c
    obtain ⟨s2, hexec, hs2, hp2⟩ := ih hs1 hp1
    exact ⟨s2, by simp [exec, hstep, hexec], hs2, hp2⟩

/-- Truncating the tail of an append does not change a prefix that ends inside the kept part. -/
theorem take_append_take {α : Type} (A B : List α) (n m : Nat) (h : n ≤ A.length + m) :
    (A ++ B.take m).take n = (A ++ B).take n := by
  rw [List.take_append_eq_append_take, List.take_append_eq_append_take, List.take_take]
  congr 2
  omega

/-- The buffer after a run of `add` calls on an aligned buffer. -/
theorem addAll_of_aligned (ps : List NetworkStats) : ∀ {series : NetworkSeries}, series.aligned →
    ∃ series1, addAll series ps = some series1 ∧ series1.aligned ∧
      ∀ f : Field, series1.get f =
        ((ps.reverse.map (fun p => float64 (p.get f))) ++ series.get f).take
          maxNetworkSeriesFrame := by
  induction ps with
  | nil =>
    intro series h
    refine ⟨series, rfl, h, fun f => ?_⟩
    have := h f
    simp [← this]
  | cons p ps ih =>
    intro series h
    have hadd := add_of_aligned p h
    obtain ⟨hal, _⟩ := add_aligned h hadd
    obtain ⟨series1, hall, hal1, hget⟩ := ih hal
    refine ⟨series1, by simp [addAll, hadd, hall], hal1, fun f => ?_⟩
    rw [hget f, add_get h hadd f]
    have key := take_append_take
      (ps.reverse.map (fun p => float64 (p.get f)) ++ [float64 (p.get f)]) (series.get f)
      maxNetworkSeriesFrame (maxNetworkSeriesFrame - 1) (by simp [maxNetworkSeriesFrame])
    simpa [List.append_assoc] using key

/-- Consecutive samples of one name in a state that already holds the baseline
`a0` for it: every delta is taken against `a0`, which stays in place. -/
theorem sampleSeq_of_baseline (linkName : String) (a0 : NetworkStats) (rest : List NetworkStats) :
    ∀ {s : State}, s.aligned → s.statCache linkName = some a0 →
    ∃ outs s1, sampleSeq s linkName rest = some (outs, s1) ∧
      outs.map (fun o => o.NetworkStats) = rest.map (fun a => a.sub a0) ∧
      s1.statCache linkName = some a0 ∧ s1.aligned := by
  induction rest with
  | nil =>
    intro s hs hb
    exact ⟨[], s, rfl, rfl, hb, hs⟩
  | cons a rest ih =>
    intro s hs hb
    obtain ⟨rel, stat1, series1, hnew, h1, _, _, _, h5⟩ :=
      NewInterfaceStats_of_aligned hs linkName a
    obtain ⟨hrel, hstat⟩ := h1 a0 hb
    subst hrel hstat
    have hal : State.aligned
        { statCache := s.statCache, seriesCache := mapSet s.seriesCache linkName series1 } := by
      intro k series hk
      by_cases hkn : k = linkName
      · subst hkn
        simp [mapSet_same] at hk
        subst hk
        exact h5
      · simp [mapSet_other _ _ hkn] at hk
        exact hs k series hk
    obtain ⟨outs, s1, hseq, hout, hb1, hs1⟩ := ih hal hb
    exact ⟨{ Name := linkName, NetworkStats := a.sub a0, NetworkSeries := NetworkSeries.empty }
      :: outs, s1, by simp [sampleSeq, hnew, hseq], by simp [hout], hb1, hs1⟩

/-- Consecutive samples of one name from a state without a baseline for it. -/
theorem sampleSeq_of_fresh {s : State} (linkName : String) (a0 : NetworkStats)
    (rest : List NetworkStats) (hs : s.aligned) (hnone : s.statCache linkName = none) :
    ∃ outs s1, sampleSeq s linkName (a0 :: rest) = some (outs, s1) ∧
      outs.map (fun o => o.NetworkStats) = NetworkStats.zero :: rest.map (fun a => a.sub a0) ∧
      s1.statCache linkName = some a0 ∧ s1.aligned := by
  obtain ⟨rel, stat1, series1, hnew, _, h2, _, _, h5⟩ :=
    NewInterfaceStats_of_aligned hs linkName a0
  obtain ⟨hrel, hstat⟩ := h2 hnone
  subst hrel hstat
  have hal : State.aligned
      { statCache := mapSet s.statCache linkName a0,
        seriesCache := mapSet s.seriesCache linkName series1 } := by
    intro k series hk
    by_cases hkn : k = linkName
    · subst hkn
      simp [mapSet_same] at hk
      subst hk
      exact h5
    · simp [mapSet_other _ _ hkn] at hk
      exact hs k series hk
  obtain ⟨outs, s1, hseq, hout, hb1, hs1⟩ :=
    sampleSeq_of_baseline linkName a0 rest hal (mapSet_same _ _ _)
  exact ⟨{ Name := linkName, NetworkStats := NetworkStats.zero,
           NetworkSeries := NetworkSeries.empty } :: outs, s1,
    by simp [sampleSeq, hnew, hseq], by simp [hout], hb1, hs1⟩

/-- A command other than the reset keeps a stored baseline. -/
theorem step_keeps_baseline {s : State} (name : String) (a0 : NetworkStats) (c : Cmd)
    (hs : s.aligned) (hb : s.statCache name = some a0) (hc : c ≠ Cmd.reset) :
    ∃ s1, step s c = some s1 ∧ s1.aligned ∧ s1.statCache name = some a0 := by
  cases c with
  | reset => exact absurd rfl hc
  | sample linkName absStats =>
    cases absStats with
    | none => exact ⟨s, by simp [step, NewInterfaceStats_none], hs, hb⟩
    | some a =>
      obtain ⟨rel, stat1, series1, hnew, h1, h2, _, _, h5⟩ :=
        NewInterfaceStats_of_aligned hs linkName a
      refine ⟨{ statCache := stat1, seriesCache := mapSet s.seriesCache linkName series1 },
        by simp [step, hnew], ?_, ?_⟩
      · intro k series hk
        by_cases hkn : k = linkName
        · subst hkn
          simp [mapSet_same] at hk
          subst hk
          exact h5
        · simp [mapSet_other _ _ hkn] at hk
          exact hs k series hk
      · cases hstat : s.statCache linkName with
        | none =>
          have hne : name ≠ linkName := by
            intro h
            subst h
            simp [hb] at hstat
          have := (h2 hstat).2
          simp [this, mapSet_other _ _ hne, hb]
        | some old =>
          have := (h1 old hstat).2
          simp [this, hb]

/-- A run without reset keeps a stored baseline. -/
theorem exec_keeps_baseline (name : String) (a0 : NetworkStats) (cmds : List Cmd) :
    ∀ {s : State}, s.aligned → s.statCache name = some a0 → Cmd.reset ∉ cmds →
    ∃ s1, exec s cmds = some s1 ∧ s1.statCache name = some a0 := by
  induction cmds with
  | nil => intro s _ hb _; exact ⟨s, rfl, hb⟩
  | cons c cs ih =>
    intro s hs hb hmem
    have hc : c ≠ Cmd.reset := by
      intro h
      exact hmem (by simp [h])
    have hcs : Cmd.reset ∉ cs := by
      intro h
      exact hmem (by simp [h])
    obtain ⟨s1, hstep, hs1, hb1⟩ := step_keeps_baseline name a0 c hs hb hc
    obtain ⟨s2, hexec, hb2⟩ := ih hs1 hb1 hcs
    exact ⟨s2, by simp [exec, hstep, hexec], hb2⟩

/-! ## The claims -/

/-- C2 (first-sample zero law): in a state whose buffers are aligned and that has
no baseline for `name`, a call of `NewInterfaceStats(name)` for which the counter
source answers `absStats` succeeds (nil error), returns the delta with all eight
fields zero, and stores `absStats` as the baseline of `name`. -/
theorem first_sample_zero (s : State) (name : String) (absStats : NetworkStats)
    (hs : s.aligned) (hnone : s.statCache name = none) :
    ∃ s1, NewInterfaceStats s name (some absStats) =
        some (({ Name := name,
                 NetworkStats := { TxPackets := 0, TxBytes := 0, TxErrors := 0, TxDropped := 0,
                                   RxPackets := 0, RxBytes := 0, RxErrors := 0, RxDropped := 0 },
                 NetworkSeries := NetworkSeries.empty }, none), s1) ∧
      s1.statCache name = some absStats := by
  obtain ⟨rel, stat1, series1, hnew, _, h2, _, _, _⟩ :=
    NewInterfaceStats_of_aligned hs name absStats
  obtain ⟨hrel, hstat⟩ := h2 hnone
  subst hrel hstat
  exact ⟨_, hnew, mapSet_same _ _ _⟩

/-- Witness of C2: the first sample of `eth0` in the initial state. -/
theorem first_sample_zero_witness :
    State.init.aligned ∧ State.init.statCache "eth0" = none ∧
    ∃ s1, NewInterfaceStats State.init "eth0" (some readingA) =
        some (({ Name := "eth0",
                 NetworkStats := { TxPackets := 0, TxBytes := 0, TxErrors := 0, TxDropped := 0,
                                   RxPackets := 0, RxBytes := 0, RxErrors := 0, RxDropped := 0 },
                 NetworkSeries := NetworkSeries.empty }, none), s1) ∧
      s1.statCache "eth0" = some readingA :=
  ⟨init_aligned, rfl, first_sample_zero State.init "eth0" readingA init_aligned rfl⟩

/-- C3 (unknown-interface safety): in every state, a call of
`NewInterfaceStats(name)` for which the counter source answers "not found"
returns a non-nil error and leaves `statCache` and `seriesCache` as they were. -/
theorem unknown_interface_safe (s : State) (name : String) :
    ∃ out err, NewInterfaceStats s name none = some ((out, some err), s) := by
  exact ⟨_, _, NewInterfaceStats_none s name⟩

/-- C6, the claim as stated fails: in the initial state `eth0` has no buffer and
`InterfaceStats{Name: "eth0"}.Graph()` returns histories of length 0, not 300. -/
theorem graph_default_not_aligned :
    State.init.seriesCache "eth0" = none ∧
    ((interfaceNamed "eth0").Graph State.init).TxPackets.length = 0 ∧
    ¬ ((interfaceNamed "eth0").Graph State.init).aligned := by
  refine ⟨rfl, rfl, ?_⟩
  intro h
  have := h Field.TxPackets
  simp [InterfaceStats.Graph, State.init, NetworkSeries.get, NetworkSeries.empty,
    maxNetworkSeriesFrame, interfaceNamed] at this

/-- C6 as amended: when `name` has no buffer, `InterfaceStats{Name: name}.Graph()`
returns the zero value `NetworkSeries{}`, whose eight fields are empty. -/
theorem graph_default_empty (s : State) (name : String) (h : s.seriesCache name = none) :
    (interfaceNamed name).Graph s = NetworkSeries.empty ∧
    ∀ f : Field, ((interfaceNamed name).Graph s).get f = [] := by
  have hg : (interfaceNamed name).Graph s = NetworkSeries.empty := by
    simp [InterfaceStats.Graph, interfaceNamed, h]
  refine ⟨hg, fun f => ?_⟩
  rw [hg]
  cases f <;> rfl

/-- Witness of amended C6: `eth0` right after a reset. -/
theorem graph_default_empty_witness :
    (Reset State.init).seriesCache "eth0" = none ∧
    (interfaceNamed "eth0").Graph (Reset State.init) = NetworkSeries.empty ∧
    ∀ f : Field, ((interfaceNamed "eth0").Graph (Reset State.init)).get f = [] :=
  ⟨rfl, graph_default_empty (Reset State.init) "eth0" rfl⟩

/-- C7 (reset completeness): from every state `Reset` yields the initial state,
both maps empty; a second `Reset` changes nothing; and the next successful
sample of any name returns the all-zero delta, stores the reading as baseline
and leaves the name with a buffer of 300 zeros in each field. -/
theorem reset_complete (s : State) :
    Reset s = State.init ∧
    (∀ k, (Reset s).statCache k = none ∧ (Reset s).seriesCache k = none) ∧
    Reset (Reset s) = Reset s ∧
    ∀ (name : String) (absStats : NetworkStats),
      ∃ s1 series, NewInterfaceStats (Reset s) name (some absStats) =
          some (({ Name := name, NetworkStats := NetworkStats.zero,
                   NetworkSeries := NetworkSeries.empty }, none), s1) ∧
        s1.statCache name = some absStats ∧
        s1.seriesCache name = some series ∧
        series.allZero ∧ series.aligned := by
  refine ⟨rfl, fun k => ⟨rfl, rfl⟩, rfl, fun name absStats => ?_⟩
  refine ⟨_, NewNetworkSeries, rfl, mapSet_same _ _ _, mapSet_same _ _ _,
    NewNetworkSeries_allZero, NewNetworkSeries_aligned⟩

/-- C8 (wraparound subtraction): for `uint64` operands, every field of
`now.sub(before)` is the difference modulo `2 ^ 64`: the exact difference when
`now.f ≥ before.f`, `2 ^ 64 - (before.f - now.f)` when `now.f < before.f`, and
`before.f + result = now.f` modulo `2 ^ 64`. -/
theorem sub_wraparound (now before : NetworkStats) (hn : now.inRange) (hb : before.inRange) :
    ∀ f : Field, WrapDiff (now.get f) (before.get f) ((now.sub before).get f) := by
  obtain ⟨n1, n2, n3, n4, n5, n6, n7, n8⟩ := hn
  obtain ⟨b1, b2, b3, b4, b5, b6, b7, b8⟩ := hb
  intro f
  rw [sub_get]
  cases f <;> exact usub_wrapDiff _ _ (by assumption) (by assumption)

/-- Witness of C8: `readingA - readingB`, where `TxPackets` and others wrap. -/
theorem sub_wraparound_witness :
    readingA.inRange ∧ readingB.inRange ∧
    ∀ f : Field, WrapDiff (readingA.get f) (readingB.get f) ((readingA.sub readingB).get f) :=
  ⟨by decide, by decide, sub_wraparound readingA readingB (by decide) (by decide)⟩

/-- C4 (prepend-and-truncate, bounded history): on a buffer whose eight fields
have length 300, adding the points `ps` in order succeeds and leaves in every
field the first 300 elements of the converted points, newest first, followed by
the old field; one `add` puts the converted point in front of old elements
0..298; and with 300 or more points the field is exactly the conversions of the
last 300 points, newest first, whatever the buffer held before. -/
theorem add_prepend_truncate (series : NetworkSeries) (ps : List NetworkStats)
    (h : series.aligned) :
    (∃ series1, addAll series ps = some series1 ∧
      (∀ f : Field, series1.get f =
        ((ps.reverse.map (fun p => float64 (p.get f))) ++ series.get f).take 300) ∧
      (300 ≤ ps.length → ∀ f : Field, series1.get f =
        (ps.drop (ps.length - 300)).reverse.map (fun p => float64 (p.get f)))) ∧
    (∀ p : NetworkStats, ∃ series1, series.add p = some series1 ∧
      ∀ f : Field, series1.get f = float64 (p.get f) :: (series.get f).take 299) := by
  constructor
  · obtain ⟨series1, hall, _, hget⟩ := addAll_of_aligned ps h
    refine ⟨series1, hall, hget, fun hlen f => ?_⟩
    rw [hget f, List.take_append_of_le_length (by simpa [maxNetworkSeriesFrame] using hlen),
      ← List.map_take, List.take_reverse]
    rfl
  · intro p
    exact ⟨_, add_of_aligned p h, fun f => add_get h (add_of_aligned p h) f⟩

/-- Witness of C4: two points added to a fresh buffer. -/
theorem add_prepend_truncate_witness :
    NewNetworkSeries.aligned ∧
    ((∃ series1, addAll NewNetworkSeries [readingA, readingB] = some series1 ∧
      (∀ f : Field, series1.get f =
        (([readingA, readingB].reverse.map (fun p => float64 (p.get f))) ++
          NewNetworkSeries.get f).take 300) ∧
      (300 ≤ [readingA, readingB].length → ∀ f : Field, series1.get f =
        ([readingA, readingB].drop ([readingA, readingB].length - 300)).reverse.map
          (fun p => float64 (p.get f)))) ∧
    (∀ p : NetworkStats, ∃ series1, NewNetworkSeries.add p = some series1 ∧
      ∀ f : Field, series1.get f = float64 (p.get f) :: (NewNetworkSeries.get f).take 299)) :=
  ⟨NewNetworkSeries_aligned,
    add_prepend_truncate NewNetworkSeries [readingA, readingB] NewNetworkSeries_aligned⟩

/-- C5 (series alignment invariant): every sequence of `NewInterfaceStats` calls
(any names, found or not found) and `Reset` calls runs from the initial state
without a slice going out of bounds; in the state reached every stored buffer has
eight fields of length 300; and a further sample of any name for which the
counter source answers succeeds and leaves index 0 of each of the eight fields
of that name equal to the conversion of the matching field of the returned delta. -/
theorem series_alignment (cmds : List Cmd) :
    ∃ s, exec State.init cmds = some s ∧
      (∀ name series, s.seriesCache name = some series →
        ∀ f : Field, (series.get f).length = 300) ∧
      ∀ (name : String) (absStats : NetworkStats),
        ∃ out s1 series, NewInterfaceStats s name (some absStats) = some ((out, none), s1) ∧
          s1.seriesCache name = some series ∧
          (∀ f : Field, (series.get f).length = 300) ∧
          ∀ f : Field, (series.get f)[0]? = some (float64 (out.NetworkStats.get f)) := by
  obtain ⟨s, hexec, hs, hp⟩ := exec_invariant cmds init_aligned init_paired
  refine ⟨s, hexec, hs, fun name absStats => ?_⟩
  obtain ⟨rel, stat1, series1, hnew, _, h2, h3, h4, h5⟩ :=
    NewInterfaceStats_of_aligned hs name absStats
  refine ⟨_, _, series1, hnew, mapSet_same _ _ _, h5, ?_⟩
  cases hser : s.seriesCache name with
  | none =>
    obtain ⟨hrel, _⟩ := h2 (hp name hser)
    rw [h4 hser, hrel]
    exact NewNetworkSeries_headIs
  | some series =>
    exact (add_aligned (hs name series hser) (h3 series hser)).2

/-- C10 (baseline fixed at first observation): from a state with aligned buffers
and no baseline for `name`, the samples of the readings `a0, a1, ..., an` all
succeed; the first delta is zero and the delta of every later reading `a` is
`a.sub a0`, field by field `(a.f - a0.f) mod 2 ^ 64`; the baseline stored for
`name` afterwards is `a0`, and it stays `a0` through any further calls of
`NewInterfaceStats` (any names, found or not) as long as there is no reset. -/
theorem baseline_fixed (s : State) (name : String) (a0 : NetworkStats)
    (rest : List NetworkStats) (hs : s.aligned) (hnone : s.statCache name = none) :
    ∃ outs s1, sampleSeq s name (a0 :: rest) = some (outs, s1) ∧
      outs.map (fun o => o.NetworkStats) = NetworkStats.zero :: rest.map (fun a => a.sub a0) ∧
      (∀ (a : NetworkStats) (f : Field),
        (((a.sub a0).get f : Nat) : Int) = ((a.get f : Int) - (a0.get f : Int)) % 2 ^ 64) ∧
      s1.statCache name = some a0 ∧
      ∀ cmds : List Cmd, Cmd.reset ∉ cmds →
        ∃ s2, exec s1 cmds = some s2 ∧ s2.statCache name = some a0 := by
  obtain ⟨outs, s1, hseq, hout, hb, hs1⟩ := sampleSeq_of_fresh name a0 rest hs hnone
  refine ⟨outs, s1, hseq, hout, fun a f => ?_, hb, fun cmds hmem => ?_⟩
  · rw [sub_get, usub_cast]
  · exact exec_keeps_baseline name a0 cmds hs1 hb hmem

/-- Witness of C10: `eth0` sampled at 1000, 1050 and 1200 transmitted packets
from the initial state. -/
theorem baseline_fixed_witness :
    State.init.aligned ∧ State.init.statCache "eth0" = none ∧
    ∃ outs s1, sampleSeq State.init "eth0" (txReading 1000 :: [txReading 1050, txReading 1200]) =
        some (outs, s1) ∧
      outs.map (fun o => o.NetworkStats) =
        NetworkStats.zero ::
          [txReading 1050, txReading 1200].map (fun a => a.sub (txReading 1000)) ∧
      (∀ (a : NetworkStats) (f : Field),
        (((a.sub (txReading 1000)).get f : Nat) : Int) =
          ((a.get f : Int) - ((txReading 1000).get f : Int)) % 2 ^ 64) ∧
      s1.statCache "eth0" = some (txReading 1000) ∧
      ∀ cmds : List Cmd, Cmd.reset ∉ cmds →
        ∃ s2, exec s1 cmds = some s2 ∧ s2.statCache "eth0" = some (txReading 1000) :=
  ⟨init_aligned, rfl,
    baseline_fixed State.init "eth0" (txReading 1000) [txReading 1050, txReading 1200]
      init_aligned rfl⟩

/-- C1, the code at the scenario of the specification: `eth0` reports 1000, 1050
and 1200 transmitted packets on three consecutive samples from the initial
state; the three calls succeed and return the `TxPackets` deltas 0, 50 and 200
(the third is `1200 - 1000`, not `1200 - 1050 = 150`). -/
theorem third_delta_against_first_reading :
    ∃ outs s1, sampleSeq State.init "eth0" [txReading 1000, txReading 1050, txReading 1200] =
        some (outs, s1) ∧
      outs.map (fun o => o.NetworkStats.TxPackets) = [0, 50, 200] ∧
      s1.statCache "eth0" = some (txReading 1000) := by
  obtain ⟨outs, s1, hseq, hout, hb, _⟩ :=
    sampleSeq_of_fresh "eth0" (txReading 1000) [txReading 1050, txReading 1200] init_aligned rfl
  refine ⟨outs, s1, hseq, ?_, hb⟩
  have h := congrArg (List.map (fun a : NetworkStats => a.TxPackets)) hout
  simp only [List.map_map] at h
  rw [show (fun o : InterfaceStats => o.NetworkStats.TxPackets) =
    (fun a : NetworkStats => a.TxPackets) ∘ (fun o => o.NetworkStats) from rfl, h]
  decide

/-- C9, the claim as stated fails: with the single configured interface `eth0`
and a counter source that answers "not found", `NewInterfaceStats` returns its
error, and the tick still rewrites the table of `eth0` and submits eight chart
series for it. -/
theorem failed_sample_is_published :
    (∃ out err, NewInterfaceStats State.init "eth0" none = some ((out, some err), State.init)) ∧
    ∃ s1 pubs, tick ["eth0"] (fun _ => none) State.init = some (s1, pubs) ∧
      pubs.length = 9 ∧
      pubs[0]? = some (Publish.tableWrite 0 (interfaceNamed "eth0").Write) ∧
      pubs[1]? = some (Publish.series Chart.packetGraph "TX Packets: eth0" [] 10) := by
  refine ⟨⟨_, _, NewInterfaceStats_none State.init "eth0"⟩, ?_⟩
  refine ⟨State.init, _, rfl, rfl, rfl, ?_⟩
  decide

/-- C9 as amended: in the iteration of the sample loop for a configured interface
(index below 6) whose `NewInterfaceStats` call fails, the engine state stays as it
was, the table of the interface is rewritten with the rendering of
`InterfaceStats{Name: name}` (the name and eight zero counters), and eight chart
series are submitted for it with the values `Graph()` returns for that name. -/
theorem failed_sample_publishes_zero (interfaces : List String) (s : State) (i : Nat)
    (name : String) (hname : interfaces[i]? = some name) (hi : i < 6) :
    ∃ brightColor color,
      brightInterfaceColors[i]? = some brightColor ∧ interfaceColors[i]? = some color ∧
      tickInterface interfaces s i none = some (s,
        [ Publish.tableWrite i (interfaceNamed name).Write,
          Publish.series Chart.packetGraph ("TX Packets: " ++ name)
            ((interfaceNamed name).Graph s).TxPackets brightColor,
          Publish.series Chart.packetGraph ("RX Packets: " ++ name)
            ((interfaceNamed name).Graph s).RxPackets color,
          Publish.series Chart.byteGraph ("TX Bytes: " ++ name)
            ((interfaceNamed name).Graph s).TxBytes brightColor,
          Publish.series Chart.byteGraph ("RX Bytes: " ++ name)
            ((interfaceNamed name).Graph s).RxBytes color,
          Publish.series Chart.byteGraph ("TX Errors: " ++ name)
            ((interfaceNamed name).Graph s).TxErrors brightColor,
          Publish.series Chart.byteGraph ("RX Errors: " ++ name)
            ((interfaceNamed name).Graph s).RxErrors color,
          Publish.series Chart.byteGraph ("TX Dropped: " ++ name)
            ((interfaceNamed name).Graph s).TxDropped brightColor,
          Publish.series Chart.byteGraph ("RX Dropped: " ++ name)
            ((interfaceNamed name).Graph s).RxDropped color ]) ∧
      (interfaceNamed name).NetworkStats = NetworkStats.zero := by
  have hb : ∃ b, brightInterfaceColors[i]? = some b := by
    have : i < brightInterfaceColors.length := by simpa [brightInterfaceColors] using hi
    exact ⟨_, List.getElem?_eq_getElem this⟩
  have hc : ∃ c, interfaceColors[i]? = some c := by
    have : i < interfaceColors.length := by simpa [interfaceColors] using hi
    exact ⟨_, List.getElem?_eq_getElem this⟩
  obtain ⟨b, hb⟩ := hb
  obtain ⟨c, hc⟩ := hc
  refine ⟨b, c, hb, hc, ?_, rfl⟩
  simp only [tickInterface, hname, NewInterfaceStats_none, hb, hc]
  rfl

/-- Witness of amended C9: `eth0` is the second of two configured interfaces and
is not found. -/
theorem failed_sample_publishes_zero_witness :
    ["lo", "eth0"][1]? = some "eth0" ∧ 1 < 6 ∧
    ∃ brightColor color,
      brightInterfaceColors[1]? = some brightColor ∧ interfaceColors[1]? = some color ∧
      tickInterface ["lo", "eth0"] State.init 1 none = some (State.init,
        [ Publish.tableWrite 1 (interfaceNamed "eth0").Write,
          Publish.series Chart.packetGraph ("TX Packets: " ++ "eth0")
            ((interfaceNamed "eth0").Graph State.init).TxPackets brightColor,
          Publish.series Chart.packetGraph ("RX Packets: " ++ "eth0")
            ((interfaceNamed "eth0").Graph State.init).RxPackets color,
          Publish.series Chart.byteGraph ("TX Bytes: " ++ "eth0")
            ((interfaceNamed "eth0").Graph State.init).TxBytes brightColor,
          Publish.series Chart.byteGraph ("RX Bytes: " ++ "eth0")
            ((interfaceNamed "eth0").Graph State.init).RxBytes color,
          Publish.series Chart.byteGraph ("TX Errors: " ++ "eth0")
            ((interfaceNamed "eth0").Graph State.init).TxErrors brightColor,
          Publish.series Chart.byteGraph ("RX Errors: " ++ "eth0")
            ((interfaceNamed "eth0").Graph State.init).RxErrors color,
          Publish.series Chart.byteGraph ("TX Dropped: " ++ "eth0")
            ((interfaceNamed "eth0").Graph State.init).TxDropped brightColor,
          Publish.series Chart.byteGraph ("RX Dropped: " ++ "eth0")
            ((interfaceNamed "eth0").Graph State.init).RxDropped color ]) ∧
      (interfaceNamed "eth0").NetworkStats = NetworkStats.zero :=
  ⟨rfl, by decide, failed_sample_publishes_zero ["lo", "eth0"] State.init 1 "eth0" rfl (by decide)⟩

end Netmon
